import Mathlib

/-!
# Verification of the right-to-read-service page-narration pipeline

A shallow embedding, in Lean 4, of the core data transformations of the
repository's TTS pipeline:

* `src/main/utils/image_processing_utils.py` — block extraction
  (`annotate_image_with_words`);
* `src/main/utils/generate_block_json_utils.py` — LLM-response cleaning
  (`clean_llm_response_to_json_string`), retrying enrichment
  (`generate_block_json`), chunked enrichment (`chunk_and_process_json`)
  and the deterministic fallback (`create_fallback_block_json`);
* `src/main/utils/saving_utils.py` — audio/timing persistence
  (`save_audio_and_speech_marks`);
* `src/main/services/tts_service.py` — the request pipeline
  (`process_tts_request`).

Python values that flow through the pipeline after `json.loads` are modelled
by the inductive type `Json`; Python dictionaries are modelled by
insertion-ordered association lists (CPython dictionaries preserve insertion
order, and re-assignment of an existing key keeps its position).  Fallible
Python code is modelled with `Except PyExc` / `Option`; network providers are
modelled as explicit functions describing their observable responses.
-/

set_option maxHeartbeats 1000000

namespace RightToRead

/-! ## Python exceptions (the kinds raised by the modelled code paths) -/

/-- The exception kinds that the modelled code can raise.  `str(e)` is
modelled by `PyExc.msg`; the exact CPython message text is not asserted
anywhere, only that a human-readable message is produced. -/
inductive PyExc where
  | typeError
  | attributeError
  | nameError
  | jsonDecodeError
  | permissionError
  | osError
  deriving DecidableEq, Repr

/-- Model of Python `str(e)` for a caught exception. -/
def PyExc.msg : PyExc → String
  | .typeError => "TypeError"
  | .attributeError => "AttributeError"
  | .nameError => "NameError"
  | .jsonDecodeError => "JSONDecodeError"
  | .permissionError => "PermissionError"
  | .osError => "OSError"

/-! ## JSON values

`Json` models the Python values produced by `json.loads`: `None`, booleans,
numbers, strings, lists, and insertion-ordered dictionaries. -/

/-- A parsed JSON number, kept in token form `mantissa * 10 ^ exp10`
(for example `1` is `(1, 0)` and `2.5` is `(25, -1)`).  No claim performs
numeric computation, so Python's int/float distinction and float rounding
are not modelled; zero-ness (for truthiness) is `mantissa = 0`. -/
structure JsonNum where
  mantissa : Int
  exp10 : Int
  deriving DecidableEq

inductive Json where
  | null
  | bool (b : Bool)
  | num (n : JsonNum)
  | str (s : String)
  | arr (elems : List Json)
  | obj (fields : List (String × Json))

/-- Python truthiness (`if x:`) of a parsed JSON value. -/
def Json.truthy : Json → Bool
  | .null => false
  | .bool b => b
  | .num n => n.mantissa != 0
  | .str s => s != ""
  | .arr xs => !xs.isEmpty
  | .obj fs => !fs.isEmpty

/-- Python `d[k] = v` on a dictionary (also the policy `json.loads` uses for
duplicate keys): replace the value in place when the key exists, otherwise
append the new pair at the end. -/
def dictInsert (d : List (String × Json)) (k : String) (v : Json) :
    List (String × Json) :=
  if d.any (fun p => p.1 == k) then
    d.map (fun p => if p.1 == k then (p.1, v) else p)
  else
    d ++ [(k, v)]

/-- Python `d.update(e)` on dictionaries. -/
def dictUpdate (d e : List (String × Json)) : List (String × Json) :=
  e.foldl (fun acc p => dictInsert acc p.1 p.2) d

/-- Python `d.get(k, default)` on a dictionary. -/
def pyGet (d : List (String × Json)) (k : String) (default : Json) : Json :=
  match d.find? (fun p => p.1 == k) with
  | some p => p.2
  | none => default

/-- Python `k in d` on a dictionary (key membership). -/
def dictHasKey (d : List (String × Json)) (k : String) : Bool :=
  d.any (fun p => p.1 == k)

/-! ## A model of `json.loads`

A fuel-based recursive-descent parser for the JSON grammar accepted by
Python's `json.loads` (strict mode): the whitespace set is space, tab,
newline, carriage return; strings use double quotes with the standard
escapes (`\uXXXX` maps to the code point; surrogate pairing is not
modelled); numbers follow the JSON grammar (no leading zeros, optional
fraction and exponent); unescaped control characters in strings are
rejected. -/

/-- The whitespace characters skipped by Python's JSON parser. -/
def isJsonWs (c : Char) : Bool :=
  c == ' ' || c == '\t' || c == '\n' || c == '\r'

def skipWs : List Char → List Char
  | [] => []
  | c :: cs => if isJsonWs c then skipWs cs else c :: cs

def hexVal (c : Char) : Option Nat :=
  if '0' ≤ c ∧ c ≤ '9' then some (c.toNat - '0'.toNat)
  else if 'a' ≤ c ∧ c ≤ 'f' then some (c.toNat - 'a'.toNat + 10)
  else if 'A' ≤ c ∧ c ≤ 'F' then some (c.toNat - 'A'.toNat + 10)
  else none

/-- Parse the body of a JSON string literal (the opening quote already
consumed), returning the string and the rest of the input. -/
def parseStringBody : List Char → List Char → Option (String × List Char)
  | acc, '"' :: rest => some (String.mk acc.reverse, rest)
  | acc, '\\' :: e :: rest =>
    match e with
    | '"' => parseStringBody ('"' :: acc) rest
    | '\\' => parseStringBody ('\\' :: acc) rest
    | '/' => parseStringBody ('/' :: acc) rest
    | 'b' => parseStringBody ('\x08' :: acc) rest
    | 'f' => parseStringBody ('\x0c' :: acc) rest
    | 'n' => parseStringBody ('\n' :: acc) rest
    | 'r' => parseStringBody ('\r' :: acc) rest
    | 't' => parseStringBody ('\t' :: acc) rest
    | 'u' =>
      match rest with
      | h1 :: h2 :: h3 :: h4 :: rest' =>
        match hexVal h1, hexVal h2, hexVal h3, hexVal h4 with
        | some a, some b, some c, some d =>
          let code := ((a * 16 + b) * 16 + c) * 16 + d
          parseStringBody (Char.ofNat code :: acc) rest'
        | _, _, _, _ => none
      | _ => none
    | _ => none
  | acc, c :: rest =>
    -- strict mode: raw control characters are invalid inside strings
    if c.toNat < 0x20 then none else parseStringBody (c :: acc) rest
  | _, [] => none

def takeDigits : List Char → List Char × List Char
  | [] => ([], [])
  | c :: cs =>
    if c.isDigit then
      let (ds, rest) := takeDigits cs
      (c :: ds, rest)
    else ([], c :: cs)

def digitsToNat (ds : List Char) : Nat :=
  ds.foldl (fun acc c => acc * 10 + (c.toNat - '0'.toNat)) 0

/-- Parse a JSON number per the grammar used by `json.loads`:
`-? (0 | [1-9][0-9]*) (. [0-9]+)? ([eE] [+-]? [0-9]+)?`. -/
def parseNumber (s : List Char) : Option (JsonNum × List Char) := do
  let (neg, s) := match s with
    | '-' :: rest => (true, rest)
    | _ => (false, s)
  let (intDs, s) ← match s with
    | '0' :: rest => some (['0'], rest)
    | c :: _ =>
      if c.isDigit ∧ c ≠ '0' then
        let (ds, rest) := takeDigits s
        some (ds, rest)
      else none
    | [] => none
  let (fracDs, s) ← match s with
    | '.' :: rest =>
      let (ds, rest') := takeDigits rest
      if ds.isEmpty then none else some (ds, rest')
    | _ => some ([], s)
  let (expNeg, expDs, s) ← match s with
    | 'e' :: rest | 'E' :: rest =>
      let (en, rest) := match rest with
        | '+' :: r => (false, r)
        | '-' :: r => (true, r)
        | _ => (false, rest)
      let (ds, rest') := takeDigits rest
      if ds.isEmpty then none else some (en, ds, rest')
    | _ => some (false, [], s)
  let mant : Int := (digitsToNat (intDs ++ fracDs) : Int)
  let expPart : Int :=
    if expNeg then -(digitsToNat expDs : Int) else (digitsToNat expDs : Int)
  some ({ mantissa := if neg then -mant else mant,
          exp10 := expPart - (fracDs.length : Int) }, s)

/-- The three states of the recursive-descent parse: a value, the remaining
items of a nonempty array (with the accumulated items), or the remaining
members of a nonempty object. -/
inductive ParseTask where
  | value
  | arrItems (acc : List Json)
  | objItems (acc : List (String × Json))

/-- One recursive-descent parser for the three tasks, structurally recursive
on an explicit fuel (one fuel unit per recursive descent; an initial fuel of
`length + 1` suffices for every valid document, as each unit of descent
consumes at least one input character). -/
def parseStep : Nat → ParseTask → List Char → Option (Json × List Char)
  | 0, _, _ => none
  | fuel + 1, ParseTask.value, s =>
    match skipWs s with
    | 'n' :: 'u' :: 'l' :: 'l' :: rest => some (Json.null, rest)
    | 't' :: 'r' :: 'u' :: 'e' :: rest => some (Json.bool true, rest)
    | 'f' :: 'a' :: 'l' :: 's' :: 'e' :: rest => some (Json.bool false, rest)
    | '"' :: rest =>
      (match parseStringBody [] rest with
       | some (str, rest') => some (Json.str str, rest')
       | none => none)
    | '[' :: rest =>
      (match skipWs rest with
       | ']' :: rest' => some (Json.arr [], rest')
       | _ => parseStep fuel (ParseTask.arrItems []) rest)
    | '{' :: rest =>
      (match skipWs rest with
       | '}' :: rest' => some (Json.obj [], rest')
       | _ => parseStep fuel (ParseTask.objItems []) rest)
    | s' =>
      match parseNumber s' with
      | some (n, rest) => some (Json.num n, rest)
      | none => none
  | fuel + 1, ParseTask.arrItems acc, s =>
    match parseStep fuel ParseTask.value s with
    | none => none
    | some (v, rest) =>
      match skipWs rest with
      | ',' :: rest' => parseStep fuel (ParseTask.arrItems (v :: acc)) rest'
      | ']' :: rest' => some (Json.arr (v :: acc).reverse, rest')
      | _ => none
  | fuel + 1, ParseTask.objItems acc, s =>
    match skipWs s with
    | '"' :: rest =>
      (match parseStringBody [] rest with
       | none => none
       | some (key, rest') =>
         match skipWs rest' with
         | ':' :: rest'' =>
           (match parseStep fuel ParseTask.value rest'' with
            | none => none
            | some (v, rest3) =>
              let acc' := dictInsert acc key v
              match skipWs rest3 with
              | ',' :: rest4 => parseStep fuel (ParseTask.objItems acc') rest4
              | '}' :: rest4 => some (Json.obj acc', rest4)
              | _ => none)
         | _ => none)
    | _ => none

/-- Model of Python `json.loads`: parse one JSON document and require that
only whitespace follows it; `none` models a raised `JSONDecodeError`. -/
def jsonLoads (s : String) : Option Json :=
  match parseStep (s.length + 1) ParseTask.value s.toList with
  | some (v, rest) => if (skipWs rest).isEmpty then some v else none
  | none => none

/-! ## Python `repr` / `str` of parsed JSON values

Needed because `create_fallback_block_json` interpolates the block's
`text` value into an f-string.  Only the string case is exercised by any
theorem; the remaining cases model Python's textual rendering of parsed
values (float `repr` and `repr` escaping inside strings are abstracted,
as no claim depends on them). -/

def pyReprNum (n : JsonNum) : String :=
  if n.exp10 = 0 then toString n.mantissa
  else toString n.mantissa ++ "e" ++ toString n.exp10

mutual

def pyReprJson : Json → String
  | Json.null => "None"
  | Json.bool true => "True"
  | Json.bool false => "False"
  | Json.num n => pyReprNum n
  | Json.str s => "'" ++ s ++ "'"
  | Json.arr xs => "[" ++ pyReprArr xs ++ "]"
  | Json.obj fs => "\x7b" ++ pyReprFields fs ++ "\x7d"

def pyReprArr : List Json → String
  | [] => ""
  | [x] => pyReprJson x
  | x :: y :: xs => pyReprJson x ++ ", " ++ pyReprArr (y :: xs)

def pyReprFields : List (String × Json) → String
  | [] => ""
  | [(k, v)] => "'" ++ k ++ "': " ++ pyReprJson v
  | (k, v) :: q :: xs => "'" ++ k ++ "': " ++ pyReprJson v ++ ", " ++ pyReprFields (q :: xs)

end

/-- Python `str(x)` of a parsed JSON value, as used in an f-string. -/
def pyStrOfJson : Json → String
  | Json.str s => s
  | j => pyReprJson j

/-! ## Reducible models of the Python string operations used below

The Lean core `String.trim` / `String.startsWith` / `String.toLower` are
implemented on byte positions and do not reduce inside the kernel, so the
embedding uses character-list implementations. -/

/-- The ASCII whitespace recognised by Python `str.strip` / `str.isspace`
(non-ASCII whitespace is not modelled). -/
def pyIsSpace (c : Char) : Bool :=
  c == ' ' || c == '\t' || c == '\n' || c == '\r' || c == '\x0b' || c == '\x0c'

/-- Model of Python `str.strip()`. -/
def pyStrip (s : String) : String :=
  String.mk (((s.toList.dropWhile pyIsSpace).reverse.dropWhile pyIsSpace).reverse)

/-- Model of Python `str.startswith`. -/
def pyStartsWith (s pre : String) : Bool :=
  pre.toList.isPrefixOf s.toList

/-- Model of Python `str.endswith`. -/
def pyEndsWith (s suf : String) : Bool :=
  suf.toList.reverse.isPrefixOf s.toList.reverse

/-- Model of Python `str.lower` (ASCII). -/
def pyLower (s : String) : String :=
  String.mk (s.toList.map Char.toLower)

/-! ## `clean_llm_response_to_json_string`
(`src/main/utils/generate_block_json_utils.py`, lines 101-124)

Python `str.find` / `str.rfind` are modelled on the character list. -/

/-- Index of the first occurrence of a character (Python `str.find`,
with `none` for `-1`). -/
def pyFindChar : List Char → Char → Option Nat
  | [], _ => none
  | c :: cs, t => if c = t then some 0 else (pyFindChar cs t).map (· + 1)

/-- Index of the last occurrence of a character (Python `str.rfind`,
with `none` for `-1`). -/
def pyRfindChar (cs : List Char) (t : Char) : Option Nat :=
  match pyFindChar cs.reverse t with
  | some k => some (cs.length - 1 - k)
  | none => none

/-- The markdown-fence stripping step of `clean_llm_response_to_json_string`:
if the (already stripped) text starts with a ```` ```json ```` fence, drop the
fence opener, drop a trailing ```` ``` ```` when present, and strip again. -/
def strip_json_fence (text : String) : String :=
  if pyStartsWith text "```json" then
    let t := String.mk (text.toList.drop 7)
    let t := if pyEndsWith t "```" then String.mk (t.toList.take (t.toList.length - 3)) else t
    pyStrip t
  else text

/-- Model of `clean_llm_response_to_json_string`.  The source declares
`Optional[str]` but never returns `None`; on failure to locate a brace pair
it returns the (fence-stripped) text unchanged, so the model returns
`String`.  Python `text[first_brace : last_brace + 1]` is the inclusive
slice. -/
def clean_llm_response_to_json_string (llm_response_text : String) : String :=
  let text := strip_json_fence (pyStrip llm_response_text)
  let cs := text.toList
  match pyFindChar cs '{', pyRfindChar cs '}' with
  | some first_brace, some last_brace =>
    if first_brace < last_brace then
      String.mk ((cs.drop first_brace).take (last_brace + 1 - first_brace))
    else text
  | _, _ => text

/-! ## Block extraction: `annotate_image_with_words`
(`src/main/utils/image_processing_utils.py`, lines 22-51)

The drawing side effects on the raster image (rectangles and block labels)
are pure image mutation and are not part of the data model; the embedding
captures the construction of the `block_details` mapping, which is the
function's only data output. -/

/-- One word tuple produced by the rendering collaborator:
`(x0, y0, x1, y1, word, block_no, line_no, word_no)`.  The source's
coordinates are floats; the pipeline only carries them (no arithmetic is
ever performed on them), so they are modelled as integers to keep the
embedding executable. -/
structure Word where
  x0 : Int
  y0 : Int
  x1 : Int
  y1 : Int
  word : String
  block_no : Nat
  line_no : Nat
  word_no : Nat
  deriving DecidableEq

/-- A word's bounding rectangle `[(x0, y0), (x1, y1)]`. -/
abbrev Rect := (Int × Int) × (Int × Int)

def Word.rect (w : Word) : Rect := ((w.x0, w.y0), (w.x1, w.y1))

/-- One entry of the `block_details` mapping. -/
structure Block where
  text : String
  words : List String
  bounding_boxes : List Rect
  deriving DecidableEq

def emptyBlock : Block := { text := "", words := [], bounding_boxes := [] }

/-- The body of the per-word loop: register the block on first sight
(insertion at the end of the dictionary), then append the word's text (plus
a trailing space), the word, and its rectangle to the block's record. -/
def insertWord (block_details : List (Nat × Block)) (w : Word) :
    List (Nat × Block) :=
  let d :=
    if block_details.any (fun p => p.1 == w.block_no) then block_details
    else block_details ++ [(w.block_no, emptyBlock)]
  d.map (fun p =>
    if p.1 == w.block_no then
      (p.1, { text := p.2.text ++ w.word ++ " ",
              words := p.2.words ++ [w.word],
              bounding_boxes := p.2.bounding_boxes ++ [w.rect] })
    else p)

/-- Model of `annotate_image_with_words` restricted to its data output: the
per-word grouping loop followed by the final `strip()` of each block's
text. -/
def annotate_image_with_words (words : List Word) : List (Nat × Block) :=
  let block_details := words.foldl insertWord []
  block_details.map (fun p => (p.1, { p.2 with text := pyStrip p.2.text }))

/-- The distinct block ids of a list, in order of first appearance. -/
def firstSeen (l : List Nat) : List Nat :=
  l.foldl (fun acc x => if x ∈ acc then acc else acc ++ [x]) []

/-- Each word appended with a single trailing space, concatenated in order
(the block-text construction of the source, before the final strip). -/
def joinWithTrailingSpaces (ws : List String) : String :=
  ws.foldl (fun acc w => acc ++ w ++ " ") ""

/-! ## Fallback enrichment: `create_fallback_block_json`
(`src/main/utils/generate_block_json_utils.py`, lines 254-281) -/

/-- The Python values `create_fallback_block_json` actually receives as its
`blocks_input_json_str` argument: a JSON string (its declared contract), or
the raw `block_details` dictionary that `tts_service.process_tts_request`
passes through `generate_block_json`. -/
inductive PyVal where
  | str (s : String)
  | blockDict (d : List (Nat × Block))

/-- The prosody wrap of the fallback `ssml` field (the interpolated value
formatted as Python's f-string would). -/
def fallbackSsml (textVal : Json) : String :=
  "<speak><prosody rate='slow'>" ++ pyStrOfJson textVal ++ "</prosody></speak>"

/-- The dictionary built for one block by the fallback loop body. -/
def fallbackBlock (block_data : List (String × Json)) : List (String × Json) :=
  [("text", pyGet block_data "text" (Json.str "")),
   ("words", pyGet block_data "words" (Json.arr [])),
   ("bounding_boxes", pyGet block_data "bounding_boxes" (Json.arr [])),
   ("ssml", Json.str (fallbackSsml (pyGet block_data "text" (Json.str "")))),
   ("dialog", Json.str "false"),
   ("person_type", Json.str "null")]

/-- The fallback loop over a parsed block mapping, building
`fallback_output` entry by entry.  A block value that is not a dictionary
makes `block_data.get` raise `AttributeError`, which the enclosing handler
converts to `None` for the whole call. -/
def create_fallback_blocks : List (String × Json) → Option (List (String × Json))
  | [] => some []
  | (k, v) :: rest =>
    match v with
    | Json.obj o =>
      match create_fallback_blocks rest with
      | some out => some ((k, Json.obj (fallbackBlock o)) :: out)
      | none => none
    | _ => none

/-- Model of `create_fallback_block_json`.  `json.loads` of a non-string
raises `TypeError` and `.items()` of a non-dictionary raises
`AttributeError`; both are caught by the function's handlers, which return
`None`. -/
def create_fallback_block_json (blocks_input_json_str : PyVal) : Option Json :=
  match blocks_input_json_str with
  | .blockDict _ => none
  | .str s =>
    match jsonLoads s with
    | none => none
    | some (Json.obj blocks) => (create_fallback_blocks blocks).map Json.obj
    | some _ => none

/-! ## The enrichment retry loop of `generate_block_json`
(`src/main/utils/generate_block_json_utils.py`, lines 160-224)

The provider is modelled by the observable outcome of each
`model.generate_content` call, indexed by the attempt number. -/

/-- Outcome of one `model.generate_content` call. -/
inductive GenAttempt where
  /-- No candidates or no content parts (empty or blocked response). -/
  | blocked
  /-- A textual response (`response.text`). -/
  | reply (text : String)
  /-- The call itself raised (the outer `except` branch of the loop). -/
  | raiseOuter
  deriving DecidableEq

def MAX_RETRIES : Nat := 3
def RETRY_DELAY_SECONDS : Nat := 2

/-- The retry loop, one constructor case per control path of the source:
returns the parsed chunk (or `none` after budget exhaustion), the number of
provider call attempts made, and the list of inter-attempt sleep durations.
The empty/blocked path and the empty-cleaned-string path sleep even on the
final attempt; the decode-failure and outer-exception paths return
immediately on the final attempt. -/
def generate_block_json_attempts (provider : Nat → GenAttempt) :
    Nat → Nat → Option Json × Nat × List Nat
  | _, 0 => (none, 0, [])
  | attempt, fuel + 1 =>
    let isLast : Bool := fuel == 0
    match provider attempt with
    | .blocked =>
      let (r, n, s) := generate_block_json_attempts provider (attempt + 1) fuel
      (r, n + 1, RETRY_DELAY_SECONDS :: s)
    | .raiseOuter =>
      if isLast then (none, 1, [])
      else
        let (r, n, s) := generate_block_json_attempts provider (attempt + 1) fuel
        (r, n + 1, RETRY_DELAY_SECONDS :: s)
    | .reply t =>
      let cleaned := clean_llm_response_to_json_string t
      if cleaned = "" then
        let (r, n, s) := generate_block_json_attempts provider (attempt + 1) fuel
        (r, n + 1, RETRY_DELAY_SECONDS :: s)
      else
        match jsonLoads cleaned with
        | some parsed => (some parsed, 1, [])
        | none =>
          if isLast then (none, 1, [])
          else
            let (r, n, s) := generate_block_json_attempts provider (attempt + 1) fuel
            (r, n + 1, RETRY_DELAY_SECONDS :: s)

/-- The full retry loop of `generate_block_json` (provider-available path):
up to `MAX_RETRIES` attempts starting at attempt 0. -/
def generate_block_json_retry (provider : Nat → GenAttempt) :
    Option Json × Nat × List Nat :=
  generate_block_json_attempts provider 0 MAX_RETRIES

/-- A provider call outcome on which the loop does not succeed: an
empty/blocked response, an exception, or a reply whose cleaned candidate
fails to parse. -/
def attemptFails (g : GenAttempt) : Prop :=
  g = .blocked ∨ g = .raiseOuter ∨
    ∃ t, g = .reply t ∧ jsonLoads (clean_llm_response_to_json_string t) = none

/-! ## Chunked enrichment: `chunk_and_process_json`
(`src/main/utils/generate_block_json_utils.py`, lines 226-252)

The source serializes each chunk with `json.dumps` and `generate_block_json`
re-parses it; since `json.loads` recovers exactly the serialized mapping,
the chunk processor is modelled as a function on chunk mappings. -/

def OUTPUT_CHUNK_SIZE : Nat := 1

/-- Consecutive chunks of `n` keys, in order (`range(0, len, n)` slicing).
The `n = 0` case is unreachable: `range` with step 0 raises before any
chunking happens, which the caller models separately. -/
def chunksOf (n : Nat) : List α → List (List α)
  | [] => []
  | x :: xs => (x :: xs.take (n - 1)) :: chunksOf n (xs.drop (n - 1))
termination_by l => l.length
decreasing_by simp [List.length_drop]; omega

/-- The sub-dictionary `{key: all_blocks[key] for key in chunk_keys}`. -/
def subDict (blocks : List (String × Json)) (ks : List String) :
    List (String × Json) :=
  ks.filterMap (fun k =>
    (blocks.find? (fun p => p.1 == k)).map (fun p => (k, p.2)))

/-- The chunk loop: each chunk's processed output is merged into
`final_output` with `dict.update`; a falsy result (`None` or an empty
mapping, since `if processed_chunk:` tests truthiness) aborts the whole
call with `None`. -/
def processChunksLoop (gen : List (String × Json) → Option (List (String × Json)))
    (blocks : List (String × Json)) :
    List (List String) → List (String × Json) → Option (List (String × Json))
  | [], final_output => some final_output
  | ck :: rest, final_output =>
    match gen (subDict blocks ck) with
    | none => none
    | some processed_chunk =>
      if processed_chunk.isEmpty then none
      else processChunksLoop gen blocks rest (dictUpdate final_output processed_chunk)

/-- Model of `chunk_and_process_json`.  `gen` is the behaviour of
`generate_block_json` on a serialized chunk (its parsed-dictionary result).
A `JSONDecodeError` on the input string, a `ValueError` from
`range(0, n, 0)` and an `AttributeError` from `.keys()` on a non-dictionary
are all caught by the enclosing handlers, which return `None`. -/
def chunk_and_process_json
    (gen : List (String × Json) → Option (List (String × Json)))
    (blocks_input_json_str : String) (chunk_size : Nat) : Option Json :=
  match jsonLoads blocks_input_json_str with
  | none => none
  | some (Json.obj all_blocks) =>
    if chunk_size = 0 then none
    else
      let block_keys := all_blocks.map (fun p => p.1)
      (processChunksLoop gen all_blocks (chunksOf chunk_size block_keys) []).map
        Json.obj
  | some _ => none

/-! ## Audio synthesis: `save_audio_and_speech_marks`
(`src/main/utils/saving_utils.py`, lines 35-102) -/

/-- The observable behaviour of a configured synthesis provider: the bytes
of the audio stream and the lines of the newline-delimited speech-mark
stream. -/
structure PollyClient where
  audioBytes : List Nat
  speechMarkLines : List String

/-- Mapping person types to Amazon Polly voice IDs. -/
def PERSON_TYPE_TO_VOICE : List (String × String) :=
  [("young boy", "Justin"), ("old man", "Matthew"), ("young girl", "Ivy"),
   ("old woman", "Kimberly"), ("middle aged man", "Joey"),
   ("middle aged woman", "Joanna")]

/-- Voice resolution:
`PERSON_TYPE_TO_VOICE.get(person_type.lower() if person_type else None, "Joanna")`.
Calling `.lower()` on a truthy non-string raises `AttributeError`. -/
def voiceForPersonType (person_type : Json) : Except PyExc String :=
  if person_type.truthy then
    match person_type with
    | Json.str s =>
      match PERSON_TYPE_TO_VOICE.find? (fun p => p.1 == pyLower s) with
      | some p => Except.ok p.2
      | none => Except.ok "Joanna"
    | _ => Except.error PyExc.attributeError
  else Except.ok "Joanna"

/-- The timing side effect
`if str(block_key) in block_json: block_json[str(block_key)]["timing"] = speech_marks`.
The membership test raises `TypeError` on non-iterable containers; string
indexing into a list or string raises `TypeError` when the test
succeeds on such a container. -/
def addTiming (block_json : Json) (block_key : String)
    (speech_marks : List Json) : Except PyExc Json :=
  match block_json with
  | Json.obj fields =>
    if dictHasKey fields block_key then
      match fields.find? (fun p => p.1 == block_key) with
      | some (_, Json.obj o) =>
        Except.ok (Json.obj (dictInsert fields block_key
          (Json.obj (dictInsert o "timing" (Json.arr speech_marks)))))
      | some _ => Except.error PyExc.typeError
      | none => Except.ok block_json
    else Except.ok block_json
  | Json.arr xs =>
    if xs.any (fun j => match j with | Json.str t => t == block_key | _ => false) then
      Except.error PyExc.typeError
    else Except.ok block_json
  | Json.str t =>
    if (t.toList.tails.any (fun suf => block_key.toList.isPrefixOf suf)) then
      Except.error PyExc.typeError
    else Except.ok block_json
  | _ => Except.error PyExc.typeError

/-- The result of one `save_audio_and_speech_marks` call: the two returned
paths, the payloads written to the audio and speech-marks files, and the
block mapping after the timing side effect. -/
structure SaveOutcome where
  audio_path : String
  speech_marks_path : String
  audioWritten : List Nat
  marksWritten : List Json
  block_json : Json

/-- Model of `save_audio_and_speech_marks`.  With no provider client it
writes a zero-length audio payload and an empty speech-mark list and
attaches an empty `timing` sequence; with a provider it resolves the voice,
collects the parseable speech-mark lines (malformed lines are skipped), and
attaches them.  `os.path.join` is modelled for POSIX paths. -/
def save_audio_and_speech_marks (polly_client : Option PollyClient)
    (block_id : String) (ssml_output : Json) (output_dir : String)
    (person_type : Json) (block_json : Json) (block_key : String) :
    Except PyExc SaveOutcome :=
  match polly_client with
  | none =>
    let audio_path := output_dir ++ "/block_" ++ block_id ++ "_audio.mp3"
    let speech_marks_path := output_dir ++ "/block_" ++ block_id ++ "_speech_marks.json"
    match addTiming block_json block_key [] with
    | Except.error e => Except.error e
    | Except.ok bj =>
      Except.ok { audio_path := audio_path, speech_marks_path := speech_marks_path,
                  audioWritten := [], marksWritten := [], block_json := bj }
  | some polly =>
    match voiceForPersonType person_type with
    | Except.error e => Except.error e
    | Except.ok _voice_id =>
      let _ := ssml_output
      let audio_path := output_dir ++ "/block_" ++ block_id ++ "_audio.mp3"
      let speech_marks := polly.speechMarkLines.filterMap
        (fun line => jsonLoads (pyStrip line))
      let speech_marks_path := output_dir ++ "/block_" ++ block_id ++ "_speech_marks.json"
      match addTiming block_json block_key speech_marks with
      | Except.error e => Except.error e
      | Except.ok bj =>
        Except.ok { audio_path := audio_path, speech_marks_path := speech_marks_path,
                    audioWritten := polly.audioBytes, marksWritten := speech_marks,
                    block_json := bj }

/-! ## The request pipeline: `process_tts_request`
(`src/main/services/tts_service.py`, lines 25-140) -/

/-- One page's manifest entry in the success result. -/
structure PageResult where
  page_number : Nat
  annotated_image_path : String
  json_path : String
  vertex_trimmed_path : String
  metadata_path : String
  deriving DecidableEq

/-- The request-level outcome dictionary.  The success dictionary has no
`errors` key and the error dictionary has no `results` key; absence is
modelled with `Option`. -/
structure RequestResult where
  status : String
  message : String
  results : Option (List PageResult)
  errors : Option (List (String × String))
  deriving DecidableEq

/-- The environment of one request: whether the Vertex AI image/part setup
succeeds (its failure triggers the fallback path), the enrichment
provider's behaviour per page and attempt, the synthesis client, and the
timestamp used in the output directory name. -/
structure Env where
  enrichmentSetupOk : Bool
  provider : Nat → Nat → GenAttempt
  polly_client : Option PollyClient
  timestamp : String

/-- A key of the per-page entry iteration: a dictionary key (string) or an
`enumerate` index (int). -/
inductive BKey where
  | strK (k : String)
  | intK (i : Nat)

/-- Python `str` / f-string rendering of an entry key. -/
def BKey.toStr : BKey → String
  | .strK k => k
  | .intK i => toString i

/-- The entry iteration
`block_json.items() if isinstance(block_json, dict) else enumerate(block_json)`
on a parsed JSON value.  Iterating a string yields its characters;
`enumerate` of `None`, a number or a boolean raises `TypeError`. -/
def pageEntriesJ : Json → Except PyExc (List (BKey × Json))
  | Json.obj fields => Except.ok (fields.map (fun p => (BKey.strK p.1, p.2)))
  | Json.arr xs => Except.ok (xs.enum.map (fun p => (BKey.intK p.1, p.2)))
  | Json.str s =>
    Except.ok (s.toList.enum.map (fun p => (BKey.intK p.1, Json.str (String.mk [p.2]))))
  | _ => Except.error PyExc.typeError

/-- The per-page loop state: the (mutated) block mapping, the accumulating
`audio_metadata` dictionary, and `vertex_path`, which is a function-scoped
Python local assigned only inside the loop body (reading it before any
assignment raises `NameError`). -/
structure PageLoopState where
  block_json : Json
  audio_metadata : List (String × Json)
  vertex_path : Option String

/-- The per-block loop of `process_tts_request`: skip entries without a
truthy `ssml` (with a warning), otherwise synthesize, write the trimmed
block JSON, and record the audio metadata entry.  `data.get` on a non-dict
entry raises `AttributeError`. -/
def processEntries (polly : Option PollyClient) (output_dir filename : String)
    (page_number : Nat) :
    List (BKey × Json) → PageLoopState → Except PyExc PageLoopState
  | [], st => Except.ok st
  | (key, data) :: rest, st =>
    match data with
    | Json.obj o =>
      let ssml := pyGet o "ssml" Json.null
      if ssml.truthy then
        match save_audio_and_speech_marks polly
            (toString page_number ++ "_" ++ key.toStr) ssml output_dir
            (pyGet o "person_type" Json.null) st.block_json key.toStr with
        | Except.error e => Except.error e
        | Except.ok out =>
          let vertex_path := output_dir ++ "/" ++ filename ++ "_page_" ++
            toString page_number ++ "_trimmed_blocks.json"
          let am := dictInsert st.audio_metadata key.toStr
            (Json.obj [("audio_path", Json.str out.audio_path),
                       ("speech_marks_path", Json.str out.speech_marks_path)])
          processEntries polly output_dir filename page_number rest
            { block_json := out.block_json, audio_metadata := am,
              vertex_path := some vertex_path }
      else processEntries polly output_dir filename page_number rest st
    | _ => Except.error PyExc.attributeError

/-- The enrichment call as `process_tts_request` makes it: when the Vertex
AI setup succeeds, the retry loop runs against the provider; when it fails
(fallback mode), `create_fallback_block_json` receives the raw
`block_details` dictionary that the service passes where a JSON string is
expected. -/
def generate_block_json_service (env : Env) (page_number : Nat)
    (block_details : List (Nat × Block)) : Option Json :=
  if env.enrichmentSetupOk then
    (generate_block_json_retry (env.provider page_number)).1
  else
    create_fallback_block_json (PyVal.blockDict block_details)

/-- Approximation of `os.path.splitext(filename)[0]` sufficient for the
deterministic path construction (no claim depends on its edge cases). -/
def splitextRoot (filename : String) : String :=
  match pyRfindChar filename.toList '.' with
  | some i => if i = 0 then filename else String.mk (filename.toList.take i)
  | none => filename

def outputDirFor (env : Env) (filename : String) : String :=
  "output/" ++ splitextRoot filename ++ "-" ++ env.timestamp

/-- One iteration of the page loop.  A `None` enrichment result makes
`enumerate(None)` raise `TypeError`; an unassigned `vertex_path` at
`results.append` raises `NameError`. -/
def processPage (env : Env) (filename output_dir : String) (page_number : Nat)
    (words : List Word) (vertex_path0 : Option String) :
    Except PyExc (PageResult × Option String) :=
  let block_details := annotate_image_with_words words
  let annotated_image_path := output_dir ++ "/" ++ filename ++
    "_annotated_page_" ++ toString page_number ++ "_blocks.png"
  let json_path := output_dir ++ "/" ++ filename ++ "_page_" ++
    toString page_number ++ "_blocks.json"
  match generate_block_json_service env page_number block_details with
  | none => Except.error PyExc.typeError
  | some block_json =>
    match pageEntriesJ block_json with
    | Except.error e => Except.error e
    | Except.ok entries =>
      match processEntries env.polly_client output_dir filename page_number
          entries { block_json := block_json, audio_metadata := [],
                    vertex_path := vertex_path0 } with
      | Except.error e => Except.error e
      | Except.ok st =>
        let metadata_path := output_dir ++ "/page_" ++ toString page_number ++
          "_audio_speech_marks_metadata.json"
        match st.vertex_path with
        | none => Except.error PyExc.nameError
        | some vp =>
          Except.ok ({ page_number := page_number,
                       annotated_image_path := annotated_image_path,
                       json_path := json_path, vertex_trimmed_path := vp,
                       metadata_path := metadata_path }, some vp)

/-- The page loop, threading the function-scoped `vertex_path`. -/
def processPagesLoop (env : Env) (filename output_dir : String) :
    List (List Word) → Nat → Option String → Except PyExc (List PageResult)
  | [], _, _ => Except.ok []
  | ws :: rest, page_number, vp =>
    match processPage env filename output_dir page_number ws vp with
    | Except.error e => Except.error e
    | Except.ok (pr, vp') =>
      match processPagesLoop env filename output_dir rest (page_number + 1) vp' with
      | Except.error e => Except.error e
      | Except.ok rs => Except.ok (pr :: rs)

/-- The uploaded document: its filename and the word list of each page. -/
structure UploadedPdf where
  filename : String
  pages : List (List Word)

/-- The `try` body of `process_tts_request`: process every page in order and
build the success dictionary. -/
def processRequestBody (pdf : UploadedPdf) (env : Env) :
    Except PyExc RequestResult :=
  let output_dir := outputDirFor env pdf.filename
  match processPagesLoop env pdf.filename output_dir pdf.pages 0 none with
  | Except.error e => Except.error e
  | Except.ok results =>
    Except.ok { status := "success",
                message := "Processed " ++ toString results.length ++ " page(s).",
                results := some results, errors := none }

/-- The behaviour of `os.remove` on the temporary PDF in the `finally`
block.  The handler catches only `PermissionError`; `os.remove` can also
raise other `OSError` subclasses (for example on a read-only filesystem or
when the file was removed externally), which are not caught. -/
inductive RemoveOutcome where
  | ok
  | permissionError
  | osError
  deriving DecidableEq

/-- The error dictionary built by the `except` handler. -/
def errorRequestResult (e : PyExc) : RequestResult :=
  { status := "error", message := e.msg, results := none,
    errors := some [("process_tts_request", e.msg)] }

/-- Model of `process_tts_request`: the `try` body, the `except Exception`
handler converting any body exception to the error dictionary, and the
`finally` block removing the temporary PDF.  A `PermissionError` from the
removal is logged and swallowed; any other removal exception replaces the
pending return value and propagates past the request boundary
(`Except.error` in the first component).  The second component records
whether the temporary file was deleted. -/
def process_tts_request (pdf : UploadedPdf) (env : Env)
    (removeOutcome : RemoveOutcome) : Except PyExc RequestResult × Bool :=
  let handled : RequestResult :=
    match processRequestBody pdf env with
    | Except.ok r => r
    | Except.error e => errorRequestResult e
  match removeOutcome with
  | .ok => (Except.ok handled, true)
  | .permissionError => (Except.ok handled, false)
  | .osError => (Except.error PyExc.osError, false)

/-! ## Closed-form helpers and concrete inputs used by the theorems -/

/-- The block that the extraction loop builds for block id `k` from word
list `ws`, in closed form (before the final strip). -/
def rawBlockOf (k : Nat) (ws : List Word) : Block :=
  { text := joinWithTrailingSpaces ((ws.filter (fun w => w.block_no == k)).map Word.word),
    words := (ws.filter (fun w => w.block_no == k)).map Word.word,
    bounding_boxes := (ws.filter (fun w => w.block_no == k)).map Word.rect }

/-- The per-entry action of the fallback loop, as a total function. -/
def fallbackEntry (p : String × Json) : String × Json :=
  match p.2 with
  | Json.obj o => (p.1, Json.obj (fallbackBlock o))
  | _ => p

/-- A 1-page document whose page has two text blocks. -/
def pdfTwoBlocks : UploadedPdf :=
  { filename := "book.pdf",
    pages := [[{ x0 := 0, y0 := 0, x1 := 10, y1 := 10, word := "Hello",
                 block_no := 0, line_no := 0, word_no := 0 },
               { x0 := 0, y0 := 20, x1 := 10, y1 := 30, word := "World",
                 block_no := 1, line_no := 0, word_no := 0 }]] }

/-- Fallback mode (enrichment provider setup fails) with no synthesis
provider configured. -/
def envFallbackNoPolly : Env :=
  { enrichmentSetupOk := false, provider := fun _ _ => GenAttempt.blocked,
    polly_client := none, timestamp := "ts" }

/-- A 1-page, 1-block document. -/
def pdfOneBlock : UploadedPdf :=
  { filename := "book.pdf",
    pages := [[{ x0 := 0, y0 := 0, x1 := 1, y1 := 1, word := "Hello",
                 block_no := 0, line_no := 0, word_no := 0 }]] }

/-- A working enrichment provider (immediately replies with a parseable
enriched block mapping) and no synthesis provider. -/
def envProviderOk : Env :=
  { enrichmentSetupOk := true,
    provider := fun _ _ => GenAttempt.reply "\x7b\"0\": \x7b\"ssml\": \"x\"\x7d\x7d",
    polly_client := none, timestamp := "ts" }

/-- The page manifest produced for `pdfOneBlock` under `envProviderOk`. -/
def pageResultOneBlock : PageResult :=
  { page_number := 0,
    annotated_image_path := "output/book-ts/book.pdf_annotated_page_0_blocks.png",
    json_path := "output/book-ts/book.pdf_page_0_blocks.json",
    vertex_trimmed_path := "output/book-ts/book.pdf_page_0_trimmed_blocks.json",
    metadata_path := "output/book-ts/page_0_audio_speech_marks_metadata.json" }

/-- Two words sharing block 0, used to instantiate the extraction
theorem. -/
def wordsOneBlockTwoWords : List Word :=
  [{ x0 := 0, y0 := 0, x1 := 1, y1 := 1, word := "Once",
     block_no := 0, line_no := 0, word_no := 0 },
   { x0 := 1, y0 := 0, x1 := 2, y1 := 1, word := "upon",
     block_no := 0, line_no := 0, word_no := 1 }]

/-- The block record that extraction builds for `wordsOneBlockTwoWords`. -/
def blockOnceUpon : Block :=
  { text := "Once upon", words := ["Once", "upon"],
    bounding_boxes := [((0, 0), (1, 1)), ((1, 0), (2, 1))] }

/-! # Theorems -/

/-! ## C1 -/

/-- C1 (code bug): in the claimed end-to-end scenario — a 1-page document
with 2 text blocks, enrichment in fallback mode, no synthesis provider —
`process_tts_request` does NOT return the claimed success result: it
returns status "error".  The root cause (second conjunct): the service
passes the raw `block_details` dictionary to `generate_block_json`, whose
fallback path feeds it to `json.loads`, which raises `TypeError`, so the
fallback returns `None` and `enumerate(None)` then raises. -/
theorem C1_fallback_request_returns_error :
    process_tts_request pdfTwoBlocks envFallbackNoPolly RemoveOutcome.ok =
      (Except.ok { status := "error", message := PyExc.msg PyExc.typeError,
                   results := none,
                   errors := some [("process_tts_request", PyExc.msg PyExc.typeError)] },
       true) ∧
    create_fallback_block_json
        (PyVal.blockDict (annotate_image_with_words (pdfTwoBlocks.pages.headD []))) =
      none :=
  ⟨rfl, rfl⟩

/-! ## C4 -/

theorem jsonLoads_empty_string : jsonLoads "" = none := rfl

/-- A failing attempt at a non-final position makes one provider call, one
sleep of `RETRY_DELAY_SECONDS`, and continues with the next attempt. -/
theorem attempts_step_fail (provider : Nat → GenAttempt) (att fuel : Nat)
    (h : attemptFails (provider att)) :
    generate_block_json_attempts provider att (fuel + 2) =
      ((generate_block_json_attempts provider (att + 1) (fuel + 1)).1,
       (generate_block_json_attempts provider (att + 1) (fuel + 1)).2.1 + 1,
       RETRY_DELAY_SECONDS ::
         (generate_block_json_attempts provider (att + 1) (fuel + 1)).2.2) := by
  rcases h with h | h | ⟨t, ht, hload⟩
  · simp [generate_block_json_attempts, h]
  · simp [generate_block_json_attempts, h]
  · by_cases hc : clean_llm_response_to_json_string t = ""
    · simp [generate_block_json_attempts, ht, hc]
    · simp [generate_block_json_attempts, ht, hc, hload]

/-- A failing final attempt makes one provider call and ends the loop with
`none`. -/
theorem attempts_fail_last (provider : Nat → GenAttempt) (att : Nat)
    (h : attemptFails (provider att)) :
    (generate_block_json_attempts provider att 1).1 = none ∧
    (generate_block_json_attempts provider att 1).2.1 = 1 := by
  rcases h with h | h | ⟨t, ht, hload⟩
  · simp [generate_block_json_attempts, h]
  · simp [generate_block_json_attempts, h]
  · by_cases hc : clean_llm_response_to_json_string t = ""
    · simp [generate_block_json_attempts, ht, hc]
    · simp [generate_block_json_attempts, ht, hc, hload]

/-- A reply whose cleaned candidate parses ends the loop at once with the
parsed value. -/
theorem attempts_success (provider : Nat → GenAttempt) (att fuel : Nat)
    (t : String) (v : Json) (ht : provider att = GenAttempt.reply t)
    (hv : jsonLoads (clean_llm_response_to_json_string t) = some v) :
    generate_block_json_attempts provider att (fuel + 1) = (some v, 1, []) := by
  have hc : clean_llm_response_to_json_string t ≠ "" := by
    intro hc
    rw [hc, jsonLoads_empty_string] at hv
    exact Option.noConfusion hv
  simp [generate_block_json_attempts, ht, hc, hv]

/-- C4: for each enrichment chunk, the retry loop has a budget of 3
attempts with a fixed delay of `RETRY_DELAY_SECONDS = 2` time units between
attempts.  A provider that fails on the first two attempts and succeeds on
the third yields the parsed result after exactly 3 provider calls with two
inter-attempt delays; a provider failing on all 3 attempts yields `none`
(chunk failure) after exactly 3 calls — never a partial result. -/
theorem C4_enrichment_retry_budget (provider : Nat → GenAttempt) :
    (∀ (v : Json) (t : String),
        attemptFails (provider 0) → attemptFails (provider 1) →
        provider 2 = GenAttempt.reply t →
        jsonLoads (clean_llm_response_to_json_string t) = some v →
        generate_block_json_retry provider =
          (some v, 3, [RETRY_DELAY_SECONDS, RETRY_DELAY_SECONDS])) ∧
    ((∀ i, i < MAX_RETRIES → attemptFails (provider i)) →
        (generate_block_json_retry provider).1 = none ∧
        (generate_block_json_retry provider).2.1 = 3) := by
  constructor
  · intro v t h0 h1 ht hv
    have e0 := attempts_step_fail provider 0 1 h0
    have e1 := attempts_step_fail provider 1 0 h1
    have e2 := attempts_success provider 2 0 t v ht hv
    norm_num at e0 e1 e2
    rw [generate_block_json_retry, MAX_RETRIES, e0, e1, e2]
  · intro hall
    have h0 := hall 0 (by rw [MAX_RETRIES]; omega)
    have h1 := hall 1 (by rw [MAX_RETRIES]; omega)
    have h2 := hall 2 (by rw [MAX_RETRIES]; omega)
    have e0 := attempts_step_fail provider 0 1 h0
    have e1 := attempts_step_fail provider 1 0 h1
    have e2 := attempts_fail_last provider 2 h2
    norm_num at e0 e1 e2
    rw [generate_block_json_retry, MAX_RETRIES, e0, e1]
    exact ⟨e2.1, by rw [e2.2]⟩

/-- Witness for C4 at concrete providers: blocked twice then a parseable
reply, and always-blocked. -/
theorem C4_enrichment_retry_budget_witness :
    generate_block_json_retry
        (fun n => if n < 2 then GenAttempt.blocked
                  else GenAttempt.reply "\x7b\"0\": \x7b\x7d\x7d") =
      (some (Json.obj [("0", Json.obj [])]), 3,
       [RETRY_DELAY_SECONDS, RETRY_DELAY_SECONDS]) ∧
    (generate_block_json_retry (fun _ => GenAttempt.blocked)).1 = none ∧
    (generate_block_json_retry (fun _ => GenAttempt.blocked)).2.1 = 3 := by
  refine ⟨?_, ?_⟩
  · exact (C4_enrichment_retry_budget _).1 (Json.obj [("0", Json.obj [])])
      "\x7b\"0\": \x7b\x7d\x7d" (Or.inl rfl) (Or.inl rfl) rfl rfl
  · exact (C4_enrichment_retry_budget _).2 (fun i _ => Or.inl rfl)

/-! ## C7 -/

/-- C7 (counterexample): an exception does occur while processing the
request (the body raises `TypeError`), yet `process_tts_request` does not
return a well-formed error result: when the temp-file removal in the
`finally` block raises a non-`PermissionError`, the exception propagates
past the request boundary. -/
theorem C7_counterexample_cleanup_exception_escapes :
    processRequestBody pdfTwoBlocks envFallbackNoPolly =
      Except.error PyExc.typeError ∧
    (process_tts_request pdfTwoBlocks envFallbackNoPolly RemoveOutcome.osError).1 =
      Except.error PyExc.osError :=
  ⟨rfl, rfl⟩

/-- C7 (amended): whenever an exception occurs while processing a request,
and the temp-file deletion in the `finally` block does not itself raise an
uncaught (non-`PermissionError`) exception, `process_tts_request` returns a
well-formed result with status "error", a human-readable message, an
`errors` map keyed by the failing stage, and no partial results list. -/
theorem C7_exception_yields_error_result (pdf : UploadedPdf) (env : Env)
    (removeOutcome : RemoveOutcome) (e : PyExc)
    (hbody : processRequestBody pdf env = Except.error e)
    (hremove : removeOutcome ≠ RemoveOutcome.osError) :
    (process_tts_request pdf env removeOutcome).1 =
      Except.ok { status := "error", message := e.msg, results := none,
                  errors := some [("process_tts_request", e.msg)] } := by
  cases removeOutcome
  · simp [process_tts_request, hbody, errorRequestResult]
  · simp [process_tts_request, hbody, errorRequestResult]
  · exact absurd rfl hremove

/-- Witness for the amended C7 at a concrete failing request. -/
theorem C7_exception_yields_error_result_witness :
    processRequestBody pdfTwoBlocks envFallbackNoPolly =
      Except.error PyExc.typeError ∧
    (process_tts_request pdfTwoBlocks envFallbackNoPolly RemoveOutcome.ok).1 =
      Except.ok { status := "error", message := PyExc.msg PyExc.typeError,
                  results := none,
                  errors := some [("process_tts_request", PyExc.msg PyExc.typeError)] } :=
  ⟨rfl, C7_exception_yields_error_result pdfTwoBlocks envFallbackNoPolly
    RemoveOutcome.ok PyExc.typeError rfl (by intro h; exact RemoveOutcome.noConfusion h)⟩

/-! ## C9 -/

/-- C9 (counterexample): on a successfully processed request, a deletion
failure that is not a `PermissionError` is NOT swallowed: it changes the
returned result from the success dictionary to a propagated exception (and
the temporary file is not removed), so deletion failures are not in general
logged-and-swallowed. -/
theorem C9_counterexample_unlink_failure_escalates :
    (process_tts_request pdfOneBlock envProviderOk RemoveOutcome.ok).1 =
      Except.ok { status := "success", message := "Processed 1 page(s).",
                  results := some [pageResultOneBlock], errors := none } ∧
    (process_tts_request pdfOneBlock envProviderOk RemoveOutcome.osError).1 =
      Except.error PyExc.osError ∧
    (process_tts_request pdfOneBlock envProviderOk RemoveOutcome.osError).2 = false :=
  ⟨rfl, rfl, rfl⟩

/-- C9 (amended): on every exit path the temp-file deletion is attempted at
request end — when removal succeeds the file is deleted regardless of the
body's outcome; a `PermissionError` during deletion is logged and swallowed
without changing the returned result; any other deletion exception
propagates and replaces the result. -/
theorem C9_temp_cleanup (pdf : UploadedPdf) (env : Env) :
    (process_tts_request pdf env RemoveOutcome.ok).2 = true ∧
    (process_tts_request pdf env RemoveOutcome.permissionError).1 =
      (process_tts_request pdf env RemoveOutcome.ok).1 ∧
    (process_tts_request pdf env RemoveOutcome.permissionError).2 = false ∧
    (process_tts_request pdf env RemoveOutcome.osError).1 =
      Except.error PyExc.osError :=
  ⟨rfl, rfl, rfl, rfl⟩

/-! ## C3 -/

/-- Applying the fallback block construction twice gives the same block. -/
theorem fallbackBlock_idem (o : List (String × Json)) :
    fallbackBlock (fallbackBlock o) = fallbackBlock o := rfl

/-- The entry key is preserved by the fallback loop body. -/
theorem fallbackEntry_fst (p : String × Json) : (fallbackEntry p).1 = p.1 := by
  cases hp : p.2 <;> simp [fallbackEntry, hp]

/-- When every block value is a dictionary, the fallback loop succeeds and
acts as a map. -/
theorem create_fallback_blocks_eq_map (blocks : List (String × Json))
    (h : ∀ p ∈ blocks, ∃ o, p.2 = Json.obj o) :
    create_fallback_blocks blocks = some (blocks.map fallbackEntry) := by
  induction blocks with
  | nil => rfl
  | cons p ps ih =>
    obtain ⟨o, ho⟩ := h p (List.mem_cons_self p ps)
    have ih' := ih (fun q hq => h q (List.mem_cons_of_mem p hq))
    obtain ⟨k, v⟩ := p
    simp only at ho
    subst ho
    simp [create_fallback_blocks, ih', fallbackEntry]

/-- C3: fallback enrichment is a pure deterministic function: for every
block mapping (whose block records are dictionaries) the output has exactly
the same block ids in the same order, each output block keeps the original
`text`, `words` and `bounding_boxes` (via `dict.get` with defaults), gains
`ssml` equal to the prosody wrap of the text, `dialog = "false"` and
`person_type = "null"`, and applying the fallback to its own output yields
the same output (idempotence). -/
theorem C3_fallback_pure_enrichment (blocks : List (String × Json))
    (h : ∀ p ∈ blocks, ∃ o, p.2 = Json.obj o) :
    ∃ out, create_fallback_blocks blocks = some out ∧
      out = blocks.map fallbackEntry ∧
      out.map Prod.fst = blocks.map Prod.fst ∧
      (∀ (i : Nat) (k : String) (o : List (String × Json)),
          blocks[i]? = some (k, Json.obj o) →
          out[i]? = some (k, Json.obj (fallbackBlock o))) ∧
      (∀ o : List (String × Json),
          pyGet (fallbackBlock o) "text" Json.null = pyGet o "text" (Json.str "") ∧
          pyGet (fallbackBlock o) "words" Json.null = pyGet o "words" (Json.arr []) ∧
          pyGet (fallbackBlock o) "bounding_boxes" Json.null =
            pyGet o "bounding_boxes" (Json.arr []) ∧
          pyGet (fallbackBlock o) "dialog" Json.null = Json.str "false" ∧
          pyGet (fallbackBlock o) "person_type" Json.null = Json.str "null") ∧
      (∀ (o : List (String × Json)) (s : String),
          pyGet o "text" (Json.str "") = Json.str s →
          pyGet (fallbackBlock o) "ssml" Json.null =
            Json.str ("<speak><prosody rate='slow'>" ++ s ++ "</prosody></speak>")) ∧
      create_fallback_blocks out = some out := by
  refine ⟨blocks.map fallbackEntry, create_fallback_blocks_eq_map blocks h, rfl,
    ?_, ?_, ?_, ?_, ?_⟩
  · simp only [List.map_map]
    exact List.map_congr_left (fun p _ => fallbackEntry_fst p)
  · intro i k o hi
    rw [List.getElem?_map, hi]
    rfl
  · intro o
    exact ⟨rfl, rfl, rfl, rfl, rfl⟩
  · intro o s hs
    show Json.str (fallbackSsml (pyGet o "text" (Json.str ""))) = _
    rw [hs]
    rfl
  · have h' : ∀ q ∈ blocks.map fallbackEntry, ∃ o', q.2 = Json.obj o' := by
      intro q hq
      rw [List.mem_map] at hq
      obtain ⟨p, hp, hpq⟩ := hq
      obtain ⟨o, ho⟩ := h p hp
      refine ⟨fallbackBlock o, ?_⟩
      rw [← hpq]
      simp [fallbackEntry, ho]
    rw [create_fallback_blocks_eq_map _ h', List.map_map]
    congr 1
    apply List.map_congr_left
    intro p hp
    obtain ⟨o, ho⟩ := h p hp
    simp [Function.comp, fallbackEntry, ho, fallbackBlock_idem]

/-- Witness for C3 at the spec's concrete example. -/
theorem C3_fallback_pure_enrichment_witness :
    (∀ p ∈ [("0", Json.obj [("text", Json.str "Hi")])], ∃ o, p.2 = Json.obj o) ∧
    create_fallback_blocks [("0", Json.obj [("text", Json.str "Hi")])] =
      some [("0", Json.obj
        [("text", Json.str "Hi"), ("words", Json.arr []),
         ("bounding_boxes", Json.arr []),
         ("ssml", Json.str "<speak><prosody rate='slow'>Hi</prosody></speak>"),
         ("dialog", Json.str "false"), ("person_type", Json.str "null")])] := by
  have hyp : ∀ p ∈ [("0", Json.obj [("text", Json.str "Hi")])], ∃ o, p.2 = Json.obj o := by
    intro p hp
    rw [List.mem_singleton] at hp
    exact ⟨[("text", Json.str "Hi")], by rw [hp]⟩
  obtain ⟨out, h1, h2, -⟩ := C3_fallback_pure_enrichment _ hyp
  refine ⟨hyp, ?_⟩
  rw [h1, h2]
  rfl

/-! ## C8 -/

/-- C8: when no synthesis provider client is configured,
`save_audio_and_speech_marks` does not fail for any block: it writes a
zero-length audio payload and an empty speech-mark list, and the block's
record in the caller's block mapping gains a `timing` field set to the
empty sequence. -/
theorem C8_no_provider_empty_audio (block_id output_dir : String)
    (ssml person_type : Json) (fields : List (String × Json))
    (block_key : String) (o : List (String × Json))
    (hfind : fields.find? (fun p => p.1 == block_key) = some (block_key, Json.obj o)) :
    save_audio_and_speech_marks none block_id ssml output_dir person_type
        (Json.obj fields) block_key =
      Except.ok
        { audio_path := output_dir ++ "/block_" ++ block_id ++ "_audio.mp3",
          speech_marks_path :=
            output_dir ++ "/block_" ++ block_id ++ "_speech_marks.json",
          audioWritten := [], marksWritten := [],
          block_json := Json.obj (dictInsert fields block_key
            (Json.obj (dictInsert o "timing" (Json.arr [])))) } := by
  have hhas : dictHasKey fields block_key = true := by
    rw [dictHasKey, List.any_eq_true]
    have hp := List.find?_some hfind
    exact ⟨(block_key, Json.obj o), List.mem_of_find?_eq_some hfind, hp⟩
  simp [save_audio_and_speech_marks, addTiming, hhas, hfind]

/-- Witness for C8 at a concrete block mapping. -/
theorem C8_no_provider_empty_audio_witness :
    ([("0", Json.obj [])].find? (fun p => p.1 == "0") = some ("0", Json.obj [])) ∧
    save_audio_and_speech_marks none "0_0" (Json.str "x") "out" Json.null
        (Json.obj [("0", Json.obj [])]) "0" =
      Except.ok
        { audio_path := "out/block_0_0_audio.mp3",
          speech_marks_path := "out/block_0_0_speech_marks.json",
          audioWritten := [], marksWritten := [],
          block_json := Json.obj [("0", Json.obj [("timing", Json.arr [])])] } := by
  refine ⟨rfl, ?_⟩
  exact C8_no_provider_empty_audio "0_0" "out" (Json.str "x") Json.null
    [("0", Json.obj [])] "0" [] rfl

/-! ## C6 -/

/-- Characterisation of `pyFindChar` from below: the first index holding
the character is what `str.find` returns. -/
theorem pyFindChar_of_first (cs : List Char) (c : Char) :
    ∀ i, cs[i]? = some c → (∀ k, k < i → cs[k]? ≠ some c) →
      pyFindChar cs c = some i := by
  induction cs with
  | nil => intro i hi _; simp at hi
  | cons d cs ih =>
    intro i hi hmin
    cases i with
    | zero =>
      rw [List.getElem?_cons_zero, Option.some_inj] at hi
      simp [pyFindChar, hi]
    | succ j =>
      have hd : ¬ d = c := by
        intro hdc
        exact hmin 0 (Nat.succ_pos j) (by rw [List.getElem?_cons_zero, hdc])
      have hj : cs[j]? = some c := by rwa [List.getElem?_cons_succ] at hi
      have hmin' : ∀ k, k < j → cs[k]? ≠ some c := by
        intro k hk hkc
        exact hmin (k + 1) (Nat.succ_lt_succ hk)
          (by rwa [List.getElem?_cons_succ])
      simp [pyFindChar, hd, ih j hj hmin']

/-- Characterisation of `pyRfindChar` from above: the last index holding
the character is what `str.rfind` returns. -/
theorem pyRfindChar_of_last (cs : List Char) (c : Char) (j : Nat)
    (hj : cs[j]? = some c) (hmax : ∀ k, j < k → cs[k]? ≠ some c) :
    pyRfindChar cs c = some j := by
  have hjlen : j < cs.length := by
    by_contra hlen
    rw [List.getElem?_eq_none (Nat.le_of_not_lt hlen)] at hj
    exact Option.noConfusion hj
  have h1 : cs.length - 1 - j < cs.length := by omega
  have hrev : cs.reverse[cs.length - 1 - j]? = some c := by
    rw [List.getElem?_reverse h1]
    have h2 : cs.length - 1 - (cs.length - 1 - j) = j := by omega
    rw [h2, hj]
  have hminrev : ∀ k, k < cs.length - 1 - j → cs.reverse[k]? ≠ some c := by
    intro k hk
    have hklen : k < cs.length := by omega
    rw [List.getElem?_reverse hklen]
    exact hmax (cs.length - 1 - k) (by omega)
  have hfind := pyFindChar_of_first cs.reverse c (cs.length - 1 - j) hrev hminrev
  rw [pyRfindChar, hfind]
  show some (cs.length - 1 - (cs.length - 1 - j)) = some j
  congr 1
  omega

/-- C6: for every raw provider response, JSON-candidate extraction first
strips a leading markdown JSON fence, then returns the substring from the
first opening brace through the last closing brace inclusive; in
particular the fenced example and a prose-wrapped object both yield a
string parsing to the inner object. -/
theorem C6_json_candidate_extraction :
    (∀ (t : String) (i j : Nat),
        ((strip_json_fence (pyStrip t)).toList)[i]? = some '\x7b' →
        (∀ k, k < i → ((strip_json_fence (pyStrip t)).toList)[k]? ≠ some '\x7b') →
        ((strip_json_fence (pyStrip t)).toList)[j]? = some '\x7d' →
        (∀ k, j < k → ((strip_json_fence (pyStrip t)).toList)[k]? ≠ some '\x7d') →
        i < j →
        clean_llm_response_to_json_string t =
          String.mk ((((strip_json_fence (pyStrip t)).toList).drop i).take (j + 1 - i))) ∧
    jsonLoads (clean_llm_response_to_json_string "```json\n\x7b\"a\":1\x7d\n```") =
      some (Json.obj [("a", Json.num ⟨1, 0⟩)]) ∧
    clean_llm_response_to_json_string
        "Sure! Here is the JSON:\n\x7b\"a\": 1\x7d\nThanks." = "\x7b\"a\": 1\x7d" ∧
    jsonLoads (clean_llm_response_to_json_string
        "Sure! Here is the JSON:\n\x7b\"a\": 1\x7d\nThanks.") =
      some (Json.obj [("a", Json.num ⟨1, 0⟩)]) := by
  refine ⟨?_, rfl, rfl, rfl⟩
  intro t i j hi hmini hj hmaxj hij
  simp only [clean_llm_response_to_json_string]
  rw [pyFindChar_of_first _ _ i hi hmini, pyRfindChar_of_last _ _ j hj hmaxj]
  simp [hij]

/-- Witness for C6 instantiating the universal part at the fenced example
(the fence-stripped text has its first opening brace at index 0 and its
last closing brace at index 6). -/
theorem C6_json_candidate_extraction_witness :
    clean_llm_response_to_json_string "```json\n\x7b\"a\":1\x7d\n```" =
      String.mk ((((strip_json_fence (pyStrip "```json\n\x7b\"a\":1\x7d\n```")).toList).drop 0).take 7) := by
  exact C6_json_candidate_extraction.1 "```json\n\x7b\"a\":1\x7d\n```" 0 6
    rfl (by intro k hk; exact absurd hk (Nat.not_lt_zero k))
    rfl
    (by
      intro k hk hc
      have hlen : ((strip_json_fence
          (pyStrip "```json\n\x7b\"a\":1\x7d\n```")).toList).length = 7 := rfl
      rw [List.getElem?_eq_none (by omega)] at hc
      exact Option.noConfusion hc)
    (by omega)

/-! ## C2 -/

theorem firstSeen_append (l : List Nat) (x : Nat) :
    firstSeen (l ++ [x]) =
      if x ∈ firstSeen l then firstSeen l else firstSeen l ++ [x] := by
  simp [firstSeen, List.foldl_append]

theorem mem_firstSeen_foldl (l : List Nat) :
    ∀ (acc : List Nat) (x : Nat),
      (x ∈ l.foldl (fun acc y => if y ∈ acc then acc else acc ++ [y]) acc) ↔
        (x ∈ acc ∨ x ∈ l) := by
  induction l with
  | nil => intro acc x; simp
  | cons a l ih =>
    intro acc x
    rw [List.foldl_cons, ih]
    by_cases ha : a ∈ acc
    · rw [if_pos ha]
      simp only [List.mem_cons]
      constructor
      · rintro (h | h)
        · exact Or.inl h
        · exact Or.inr (Or.inr h)
      · rintro (h | h | h)
        · exact Or.inl h
        · exact Or.inl (h ▸ ha)
        · exact Or.inr h
    · rw [if_neg ha]
      simp only [List.mem_append, List.mem_singleton, List.mem_cons]
      tauto

theorem mem_firstSeen (l : List Nat) (x : Nat) : x ∈ firstSeen l ↔ x ∈ l := by
  rw [firstSeen, mem_firstSeen_foldl]
  simp

theorem joinWithTrailingSpaces_append (xs : List String) (x : String) :
    joinWithTrailingSpaces (xs ++ [x]) = joinWithTrailingSpaces xs ++ x ++ " " := by
  simp [joinWithTrailingSpaces, List.foldl_append]

theorem filter_block_eq_nil (ws : List Word) (k : Nat)
    (h : k ∉ ws.map Word.block_no) :
    ws.filter (fun v => v.block_no == k) = [] := by
  rw [List.filter_eq_nil_iff]
  intro v hv
  simp only [beq_iff_eq]
  intro hk
  exact h (List.mem_map.mpr ⟨v, hv, hk⟩)

/-- Appending a word extends its own block's record by that word's text,
word and rectangle. -/
theorem rawBlockOf_append_self (l : List Word) (w : Word) :
    rawBlockOf w.block_no (l ++ [w]) =
      { text := (rawBlockOf w.block_no l).text ++ w.word ++ " ",
        words := (rawBlockOf w.block_no l).words ++ [w.word],
        bounding_boxes := (rawBlockOf w.block_no l).bounding_boxes ++ [w.rect] } := by
  simp [rawBlockOf, List.filter_append, List.filter, joinWithTrailingSpaces_append]

/-- Appending a word leaves every other block's record unchanged. -/
theorem rawBlockOf_append_other (l : List Word) (w : Word) (k : Nat)
    (hkw : k ≠ w.block_no) :
    rawBlockOf k (l ++ [w]) = rawBlockOf k l := by
  have hb : (w.block_no == k) = false :=
    beq_eq_false_iff_ne.mpr (fun h => hkw h.symm)
  simp [rawBlockOf, List.filter_append, List.filter, hb]

/-- Projecting the keys out of a key-indexed map gives the key list back. -/
theorem map_fst_key_pairs {β : Type} (l : List Nat) (f : Nat → β) :
    (l.map (fun k => (k, f k))).map Prod.fst = l := by
  induction l with
  | nil => rfl
  | cons a l ih => simp [ih]

/-- Closed form of the word-grouping fold of `annotate_image_with_words`:
one entry per block id in first-seen order, carrying exactly the words,
rectangles and concatenated text of that block in input order. -/
theorem foldl_insertWord_closed (ws : List Word) :
    ws.foldl insertWord [] =
      (firstSeen (ws.map Word.block_no)).map (fun k => (k, rawBlockOf k ws)) := by
  induction ws using List.reverseRecOn with
  | nil => rfl
  | append_singleton l w ih =>
    rw [List.foldl_append, List.foldl_cons, List.foldl_nil, ih, List.map_append,
      List.map_cons, List.map_nil, firstSeen_append]
    by_cases hx : w.block_no ∈ firstSeen (l.map Word.block_no)
    · rw [if_pos hx]
      have hany : ((firstSeen (l.map Word.block_no)).map
          (fun k => (k, rawBlockOf k l))).any (fun p => p.1 == w.block_no) = true := by
        rw [List.any_eq_true]
        exact ⟨(w.block_no, rawBlockOf w.block_no l),
          List.mem_map.mpr ⟨w.block_no, hx, rfl⟩, by simp⟩
      simp only [insertWord, hany, if_true, List.map_map]
      apply List.map_congr_left
      intro k hk
      by_cases hkw : k = w.block_no
      · subst hkw
        rw [Function.comp_apply, if_pos (by simp), rawBlockOf_append_self l w]
      · have hb : ¬ (((k, rawBlockOf k l).1 == w.block_no) = true) := by
          intro habs
          exact hkw (by simpa using habs)
        rw [Function.comp_apply, if_neg hb, rawBlockOf_append_other l w k hkw]
    · rw [if_neg hx]
      have hany : ((firstSeen (l.map Word.block_no)).map
          (fun k => (k, rawBlockOf k l))).any (fun p => p.1 == w.block_no) = false := by
        rw [List.any_eq_false]
        intro p hp
        obtain ⟨k, hk, rfl⟩ := List.mem_map.mp hp
        intro hkw
        have hk2 : k = w.block_no := by simpa using hkw
        exact hx (hk2 ▸ hk)
      simp only [insertWord, hany, Bool.false_eq_true, if_false, List.map_append,
        List.map_cons, List.map_nil, List.map_map]
      congr 1
      · apply List.map_congr_left
        intro k hk
        have hkw : k ≠ w.block_no := fun h => hx (h ▸ hk)
        have hb : ¬ (((k, rawBlockOf k l).1 == w.block_no) = true) := by
          intro habs
          exact hkw (by simpa using habs)
        rw [Function.comp_apply, if_neg hb, rawBlockOf_append_other l w k hkw]
      · have hnl : w.block_no ∉ l.map Word.block_no :=
          fun h => hx ((mem_firstSeen _ _).mpr h)
        have hfe : l.filter (fun v => v.block_no == w.block_no) = [] :=
          filter_block_eq_nil l w.block_no hnl
        simp [rawBlockOf_append_self l w, rawBlockOf, hfe, joinWithTrailingSpaces,
          emptyBlock]

/-- C2: block extraction groups words by block id in first-seen order;
every block's `words` and `bounding_boxes` have equal length and list, in
input order, exactly the words (and their rectangles) carrying that block
id; the block text is each word appended with a single trailing space,
concatenated and finally stripped; an empty word sequence yields an empty
mapping. -/
theorem C2_block_extraction (words : List Word) :
    (annotate_image_with_words words).map Prod.fst =
      firstSeen (words.map Word.block_no) ∧
    (∀ kb ∈ annotate_image_with_words words,
        kb.2.words = (words.filter (fun w => w.block_no == kb.1)).map Word.word ∧
        kb.2.bounding_boxes =
          (words.filter (fun w => w.block_no == kb.1)).map Word.rect ∧
        kb.2.words.length = kb.2.bounding_boxes.length ∧
        kb.2.text = pyStrip (joinWithTrailingSpaces kb.2.words)) ∧
    annotate_image_with_words [] = [] := by
  have hclosed : annotate_image_with_words words =
      (firstSeen (words.map Word.block_no)).map
        (fun k => (k, { rawBlockOf k words with
                        text := pyStrip (rawBlockOf k words).text })) := by
    rw [annotate_image_with_words, foldl_insertWord_closed, List.map_map]
    rfl
  refine ⟨?_, ?_, rfl⟩
  · rw [hclosed]
    exact map_fst_key_pairs _ _
  · intro kb hkb
    rw [hclosed, List.mem_map] at hkb
    obtain ⟨k, hk, rfl⟩ := hkb
    exact ⟨rfl, rfl, by simp [rawBlockOf], rfl⟩

/-- Witness for C2 at a concrete two-word block. -/
theorem C2_block_extraction_witness :
    (0, blockOnceUpon) ∈ annotate_image_with_words wordsOneBlockTwoWords ∧
    blockOnceUpon.words =
      ((wordsOneBlockTwoWords.filter (fun w => w.block_no == 0)).map Word.word) ∧
    blockOnceUpon.text = pyStrip (joinWithTrailingSpaces blockOnceUpon.words) := by
  have hm : (0, blockOnceUpon) ∈ annotate_image_with_words wordsOneBlockTwoWords := by
    have he : annotate_image_with_words wordsOneBlockTwoWords = [(0, blockOnceUpon)] :=
      rfl
    rw [he]
    exact List.mem_singleton.mpr rfl
  obtain ⟨h1, _, _, h4⟩ := (C2_block_extraction wordsOneBlockTwoWords).2.1 _ hm
  exact ⟨hm, h1, h4⟩

/-! ## C5 -/

theorem chunksOf_join_aux (n : Nat) :
    ∀ (fuel : Nat) (l : List String), l.length ≤ fuel →
      (chunksOf n l).flatten = l := by
  intro fuel
  induction fuel with
  | zero =>
    intro l hl
    rw [List.length_eq_zero.mp (Nat.le_zero.mp hl)]
    simp [chunksOf]
  | succ f ih =>
    intro l hl
    cases l with
    | nil => simp [chunksOf]
    | cons x xs =>
      simp only [chunksOf, List.flatten_cons]
      rw [ih (xs.drop (n - 1)) (by simp only [List.length_drop]; simp at hl; omega),
        List.cons_append, List.take_append_drop]

/-- The chunks cover the keys exactly, in order. -/
theorem chunksOf_join (n : Nat) (l : List String) : (chunksOf n l).flatten = l :=
  chunksOf_join_aux n l.length l (Nat.le_refl _)

theorem chunksOf_mem_aux (n : Nat) (hn : 0 < n) :
    ∀ (fuel : Nat) (l ck : List String), l.length ≤ fuel →
      ck ∈ chunksOf n l → ck ≠ [] ∧ ck.length ≤ n := by
  intro fuel
  induction fuel with
  | zero =>
    intro l ck hl hck
    rw [List.length_eq_zero.mp (Nat.le_zero.mp hl)] at hck
    simp [chunksOf] at hck
  | succ f ih =>
    intro l ck hl hck
    cases l with
    | nil => simp [chunksOf] at hck
    | cons x xs =>
      simp only [chunksOf, List.mem_cons] at hck
      rcases hck with rfl | hck
      · refine ⟨by simp, ?_⟩
        simp only [List.length_cons, List.length_take]
        omega
      · exact ih (xs.drop (n - 1)) ck
          (by simp only [List.length_drop]; simp at hl; omega) hck

/-- Every chunk is nonempty and no longer than the chunk size. -/
theorem chunksOf_mem (n : Nat) (hn : 0 < n) (l ck : List String)
    (hck : ck ∈ chunksOf n l) : ck ≠ [] ∧ ck.length ≤ n :=
  chunksOf_mem_aux n hn l.length l ck (Nat.le_refl _) hck

/-- When every chunk is processed successfully (and non-emptily), the loop
returns the left fold of `dict.update` over the chunk outputs. -/
theorem processChunksLoop_success
    (gen : List (String × Json) → Option (List (String × Json)))
    (blocks : List (String × Json)) :
    ∀ (cks : List (List String)) (acc : List (String × Json)),
      (∀ ck ∈ cks, ∃ d, gen (subDict blocks ck) = some d ∧ d ≠ []) →
      processChunksLoop gen blocks cks acc =
        some (cks.foldl
          (fun a ck => dictUpdate a ((gen (subDict blocks ck)).getD [])) acc) := by
  intro cks
  induction cks with
  | nil => intro acc _; rfl
  | cons ck cks ih =>
    intro acc h
    obtain ⟨d, hd, hdne⟩ := h ck (List.mem_cons_self ck cks)
    have hde : d.isEmpty = false := by
      cases d with
      | nil => exact absurd rfl hdne
      | cons a as => rfl
    rw [List.foldl_cons, processChunksLoop, hd]
    simp only [hde, Bool.false_eq_true, if_false, hd, Option.getD_some]
    exact ih _ (fun c hc => h c (List.mem_cons_of_mem _ hc))

/-- If any chunk fails (a `None` result or an empty mapping), the loop
returns `None`. -/
theorem processChunksLoop_fail
    (gen : List (String × Json) → Option (List (String × Json)))
    (blocks : List (String × Json)) :
    ∀ (cks : List (List String)) (acc : List (String × Json)),
      (∃ ck ∈ cks, gen (subDict blocks ck) = none ∨
        gen (subDict blocks ck) = some []) →
      processChunksLoop gen blocks cks acc = none := by
  intro cks
  induction cks with
  | nil =>
    intro acc h
    simp at h
  | cons ck cks ih =>
    intro acc h
    obtain ⟨c, hc, hfail⟩ := h
    rw [List.mem_cons] at hc
    rcases hc with rfl | hc
    · rcases hfail with hf | hf <;> simp [processChunksLoop, hf]
    · cases hg : gen (subDict blocks ck) with
      | none => simp [processChunksLoop, hg]
      | some d =>
        cases d with
        | nil => simp [processChunksLoop, hg]
        | cons a as =>
          simp only [processChunksLoop, hg, List.isEmpty_cons, Bool.false_eq_true,
            if_false]
          exact ih _ ⟨c, hc, hfail⟩

/-- C5: `chunk_and_process_json` partitions the keys into consecutive
chunks of `chunk_size` in key order; when every chunk succeeds (with a
nonempty mapping) it merges each chunk's output into one result mapping;
if any chunk fails the whole call returns `None` for the page — never a
partial mapping. -/
theorem C5_chunked_all_or_nothing
    (gen : List (String × Json) → Option (List (String × Json)))
    (s : String) (chunk_size : Nat) (blocks : List (String × Json))
    (hcs : 0 < chunk_size)
    (hparse : jsonLoads s = some (Json.obj blocks)) :
    (List.flatten (chunksOf chunk_size (blocks.map Prod.fst)) = blocks.map Prod.fst ∧
     (∀ ck ∈ chunksOf chunk_size (blocks.map Prod.fst),
        ck ≠ [] ∧ ck.length ≤ chunk_size)) ∧
    ((∀ ck ∈ chunksOf chunk_size (blocks.map Prod.fst),
        ∃ d, gen (subDict blocks ck) = some d ∧ d ≠ []) →
      chunk_and_process_json gen s chunk_size =
        some (Json.obj ((chunksOf chunk_size (blocks.map Prod.fst)).foldl
          (fun acc ck => dictUpdate acc ((gen (subDict blocks ck)).getD [])) []))) ∧
    ((∃ ck ∈ chunksOf chunk_size (blocks.map Prod.fst),
        gen (subDict blocks ck) = none ∨ gen (subDict blocks ck) = some []) →
      chunk_and_process_json gen s chunk_size = none) := by
  have hne : ¬ chunk_size = 0 := Nat.pos_iff_ne_zero.mp hcs
  refine ⟨⟨chunksOf_join chunk_size _,
    fun ck hck => chunksOf_mem chunk_size hcs _ ck hck⟩, ?_, ?_⟩
  · intro hall
    simp only [chunk_and_process_json, hparse, hne, if_false,
      processChunksLoop_success gen blocks _ [] hall, Option.map_some']
  · intro hex
    simp only [chunk_and_process_json, hparse, hne, if_false,
      processChunksLoop_fail gen blocks _ [] hex, Option.map_none']

/-- Witness for C5 at a concrete one-block mapping with the identity chunk
processor. -/
theorem C5_chunked_all_or_nothing_witness :
    jsonLoads "\x7b\"a\":1\x7d" = some (Json.obj [("a", Json.num ⟨1, 0⟩)]) ∧
    chunk_and_process_json (fun ck => some ck) "\x7b\"a\":1\x7d" 1 =
      some (Json.obj [("a", Json.num ⟨1, 0⟩)]) := by
  refine ⟨rfl, ?_⟩
  have hchunks : chunksOf 1 ([("a", Json.num ⟨1, 0⟩)].map Prod.fst) = [["a"]] := by
    simp [chunksOf]
  have h := (C5_chunked_all_or_nothing (fun ck => some ck) "\x7b\"a\":1\x7d" 1
    [("a", Json.num ⟨1, 0⟩)] (by omega) rfl).2.1 ?hall
  case hall =>
    intro ck hck
    rw [hchunks, List.mem_singleton] at hck
    subst hck
    exact ⟨[("a", Json.num ⟨1, 0⟩)], rfl, by simp⟩
  rw [h, hchunks]
  rfl

/-! ## C10 -/

/-- C10: if `generate_block_json` succeeds for a chunk but returns an empty
mapping, `chunk_and_process_json` treats it exactly like a failure (the
truthiness test) and returns `None` for the entire page, instead of a
result that merely omits those blocks. -/
theorem C10_empty_chunk_result_fails_page
    (gen : List (String × Json) → Option (List (String × Json)))
    (s : String) (chunk_size : Nat) (blocks : List (String × Json))
    (hcs : 0 < chunk_size)
    (hparse : jsonLoads s = some (Json.obj blocks))
    (ck : List String) (hck : ck ∈ chunksOf chunk_size (blocks.map Prod.fst))
    (hempty : gen (subDict blocks ck) = some []) :
    chunk_and_process_json gen s chunk_size = none := by
  have hne : ¬ chunk_size = 0 := Nat.pos_iff_ne_zero.mp hcs
  simp only [chunk_and_process_json, hparse, hne, if_false,
    processChunksLoop_fail gen blocks _ [] ⟨ck, hck, Or.inr hempty⟩,
    Option.map_none']

/-- Witness for C10 at a concrete one-block mapping whose only chunk is
judged empty. -/
theorem C10_empty_chunk_result_fails_page_witness :
    (["a"] ∈ chunksOf 1 ([("a", Json.num ⟨1, 0⟩)].map Prod.fst)) ∧
    chunk_and_process_json (fun _ => some []) "\x7b\"a\":1\x7d" 1 = none := by
  have hchunks : chunksOf 1 ([("a", Json.num ⟨1, 0⟩)].map Prod.fst) = [["a"]] := by
    simp [chunksOf]
  refine ⟨by rw [hchunks]; exact List.mem_singleton.mpr rfl, ?_⟩
  exact C10_empty_chunk_result_fails_page (fun _ => some []) "\x7b\"a\":1\x7d" 1
    [("a", Json.num ⟨1, 0⟩)] (by omega) rfl ["a"]
    (by rw [hchunks]; exact List.mem_singleton.mpr rfl) rfl

end RightToRead
